import Mathlib

/-!
# ResuMate server routes: a shallow embedding

This file embeds the two Next.js route handlers of the ResuMate
repository (`/api/extract` and `/api/analyze`, both in
`src/app/api/extract/route.ts` and its sibling analyze route) as pure
Lean functions, and proves the behavioural claims about them.

Modelling conventions:
* Strings are handled as `List Char` where character-level reasoning is
  needed (the whitespace pipeline, filename suffix dispatch).
* The JavaScript regular-expression operations of the extract handler
  (`.replace(/\s+/g, " ")`, `.replace(/\n\s*\n/g, "\n\n")`, `.trim()`)
  are implemented as structurally recursive scanners with exactly the
  ECMAScript semantics (leftmost, non-overlapping, greedy matches).
* External effects (the OpenAI client construction, the completion
  call, `JSON.parse`, the pdf/docx parser libraries) are parameters of
  the handler functions: an `Except String _` models a JavaScript
  operation that can throw, the thrown message being the `String`.
* The analyze handler is instrumented to additionally return the list
  of prompts sent to the completion endpoint, so that "no outbound
  call is issued" is expressible as that list being empty.
-/

/-- The ECMAScript `\s` character class (also the set trimmed by
`String.prototype.trim`): ASCII whitespace, NBSP, the Unicode space
separators, line/paragraph separators and the BOM. -/
def isWs (c : Char) : Bool :=
  c = ' ' || c = '\t' || c = '\n' || c = '\r' || c = '\u000b' || c = '\u000c' ||
  c = '\u00a0' || c = '\u1680' || ('\u2000' ≤ c && c ≤ '\u200a') ||
  c = '\u2028' || c = '\u2029' || c = '\u202f' || c = '\u205f' ||
  c = '\u3000' || c = '\ufeff'

/-- Scanner for `.replace(/\s+/g, " ")`: each maximal run of whitespace
characters is replaced by a single space.  The flag records whether the
previous character belonged to a whitespace run already emitted. -/
def cwAux : Bool → List Char → List Char
  | _, [] => []
  | prevWs, c :: cs =>
    if isWs c then
      if prevWs then cwAux true cs else ' ' :: cwAux true cs
    else
      c :: cwAux false cs

/-- The first replace of the cleanup step, `.replace(/\s+/g, " ")`. -/
def cw (l : List Char) : List Char := cwAux false l

/-- Scanner for `.replace(/\n\s*\n/g, "\n\n")`.  A match starts at a
newline; `\s*` is greedy, so the match extends to the last newline of
the whitespace run that follows, and scanning resumes after it.  The
state holds, once an initial newline has been seen, whether a second
newline has been reached (so a match is complete) and the (reversed)
whitespace characters read since the last newline. -/
def rbAux : Option (Bool × List Char) → List Char → List Char
  | none, [] => []
  | none, c :: cs =>
    if c = '\n' then rbAux (some (false, [])) cs
    else c :: rbAux none cs
  | some (saw, buf), [] =>
    (if saw then ['\n', '\n'] else ['\n']) ++ buf.reverse
  | some (saw, buf), c :: cs =>
    if c = '\n' then rbAux (some (true, [])) cs
    else if isWs c then rbAux (some (saw, c :: buf)) cs
    else (if saw then ['\n', '\n'] else ['\n']) ++ buf.reverse ++ c :: rbAux none cs

/-- The second replace of the cleanup step, `.replace(/\n\s*\n/g, "\n\n")`. -/
def rb (l : List Char) : List Char := rbAux none l

/-- Leading-whitespace trim (the left half of `String.prototype.trim`). -/
def trimL (l : List Char) : List Char := l.dropWhile isWs

/-- Trailing-whitespace trim (the right half of `String.prototype.trim`). -/
def trimR (l : List Char) : List Char := (l.reverse.dropWhile isWs).reverse

/-- JavaScript `s.trim()` with the ECMAScript whitespace set. -/
def jsTrim (l : List Char) : List Char := trimR (trimL l)

/-- The extract handler's cleanup of extracted text (route.ts lines 41-44):
`extractedText.replace(/\s+/g, " ").replace(/\n\s*\n/g, "\n\n").trim()`. -/
def cleanUp (l : List Char) : List Char := jsTrim (rb (cw l))

/-- JavaScript `String.prototype.toLowerCase` restricted to the simple
single-character case mappings (sufficient for filename extensions). -/
def jsToLower (l : List Char) : List Char := l.map Char.toLower

/-- JavaScript `String.prototype.endsWith`. -/
def endsWithL (l s : List Char) : Bool := decide (s <:+ l)

/-- The `{ error, details? }` payload shape shared by both routes. -/
structure APIError where
  error : String
  details : Option String := none
deriving DecidableEq

/-- An uploaded file as the extract route sees it: the declared name
(`file.name`) and the bytes of its `arrayBuffer`. -/
structure UploadedFile where
  name : List Char
  content : List Nat
deriving DecidableEq

/-- The two third-party parser libraries used by the extract route, as
abstract functions of the file bytes.  `Except.error` models a thrown
exception carrying its message.  `unpdf`'s `extractText` yields a `text`
that is either an array of page strings or a single string (the route
joins the array with a newline). -/
structure ExtractEnv where
  pdfText : List Nat → Except String (List (List Char) ⊕ List Char)
  docxRaw : List Nat → Except String (List Char)

/-- Outcome of the extract route: a 200 `{ text }` payload or an
error status with an `APIError` payload. -/
inductive ExtractResult where
  | ok (text : List Char)
  | err (status : Nat) (e : APIError)
deriving DecidableEq

def legacyDocErr : APIError :=
  ⟨"Legacy .doc format is not supported. Please convert to .docx or PDF.", none⟩

def unsupportedErr : APIError :=
  ⟨"Unsupported file format. Please upload a PDF or Word document (.docx).", none⟩

def emptyOrCorruptErr : APIError :=
  ⟨"Could not extract text from the file. The file may be empty or corrupted.", none⟩

/-- Lines 41-53 of the extract route: clean the extracted text, reject
if nothing non-whitespace remains, otherwise return `{ text }`. -/
def finishExtract (extractedText : List Char) : ExtractResult :=
  let t := cleanUp extractedText
  if t.isEmpty then .err 400 emptyOrCorruptErr else .ok t

/-- The `.pdf` branch (lines 19-22): run `unpdf`, join an array result
with newlines, then the shared cleanup; a thrown parser error is caught
by the route's catch-all and mapped to a 500. -/
def pdfBranch (env : ExtractEnv) (f : UploadedFile) : ExtractResult :=
  match env.pdfText f.content with
  | .error e => .err 500 ⟨"Failed to extract text from file", some e⟩
  | .ok (.inl pages) => finishExtract (List.intercalate ['\n'] pages)
  | .ok (.inr t) => finishExtract t

/-- The `.docx` branch (lines 23-27): run `mammoth.extractRawText`,
then the shared cleanup; a thrown parser error maps to a 500. -/
def docxBranch (env : ExtractEnv) (f : UploadedFile) : ExtractResult :=
  match env.docxRaw f.content with
  | .error e => .err 500 ⟨"Failed to extract text from file", some e⟩
  | .ok t => finishExtract t

/-- The POST handler of `/api/extract` (route.ts lines 5-61).  The
filename is lowercased once and dispatch is by suffix, in the source's
order: `.pdf`, `.docx`, `.doc` (rejected), everything else (rejected). -/
def extractPOST (env : ExtractEnv) (file : Option UploadedFile) : ExtractResult :=
  match file with
  | none => .err 400 ⟨"No file provided", none⟩
  | some f =>
    let fileName := jsToLower f.name
    if endsWithL fileName ".pdf".data then pdfBranch env f
    else if endsWithL fileName ".docx".data then docxBranch env f
    else if endsWithL fileName ".doc".data then .err 400 legacyDocErr
    else .err 400 unsupportedErr

/-- A JSON value, as produced by `JSON.parse`. -/
inductive Json where
  | null
  | bool (b : Bool)
  | num (v : ℚ)
  | str (s : String)
  | arr (elements : List Json)
  | obj (fields : List (String × Json))

/-- The request body type of `/api/analyze` (`AnalyzeRequest` in
`types/resume.ts`): `resumeText: string`, `jobDescription?: string`. -/
structure AnalyzeRequest where
  resumeText : String
  jobDescription : Option String

/-- JavaScript property read on a parsed JSON value.  Reading a
property of `null` throws a `TypeError` (the message wording is
runtime-specific; only the read property's name is kept here); reading
a missing property, or a property of any other non-object value,
yields `undefined`, modelled as `none`. -/
def jsGetField (j : Json) (k : String) : Except String (Option Json) :=
  match j with
  | .null => .error ("Cannot read properties of null (reading " ++ k ++ ")")
  | .obj fields => .ok (fields.lookup k)
  | _ => .ok none

/-- Pure field lookup on a non-null JSON value (what `jsGetField`
returns when it does not throw). -/
def fieldOf (j : Json) (k : String) : Option Json :=
  match j with
  | .obj fields => fields.lookup k
  | _ => none

/-- The check `typeof v === "number"` for an optionally-present field. -/
def isNumField (v : Option Json) : Bool :=
  match v with
  | some (.num _) => true
  | _ => false

/-- The check `Array.isArray(v)` for an optionally-present field. -/
def isArrField (v : Option Json) : Bool :=
  match v with
  | some (.arr _) => true
  | _ => false

/-- Lines 163-167 of the analyze route: the structural check
`typeof r.resumeScore === "number" && Array.isArray(r.strengths) &&
Array.isArray(r.weaknesses)`; the three property reads throw exactly
when the parsed value is `null`. -/
def validateStructure (j : Json) : Except String Bool := do
  let s ← jsGetField j "resumeScore"
  let st ← jsGetField j "strengths"
  let wk ← jsGetField j "weaknesses"
  pure (isNumField s && isArrField st && isArrField wk)

/-- The prompt template of the analyze route (`buildPrompt`,
lines 66-113), with the resume text and the job description (or the
empty string) interpolated. -/
def buildPrompt (resumeText : String) (jobDescription : Option String) : String :=
  "You are a helpful assistant that analyzes resumes and job descriptions.\n\n" ++
  "I will provide text for a resume, and optionally a job description.\n\n" ++
  "Your task is to:\n\n" ++
  "1. Score the resume between 0 and 100 for job fit.\n" ++
  "2. List 5 bullet points of the **strengths** of the resume.\n" ++
  "3. List 5 bullet points of the **weaknesses** or areas to improve.\n" ++
  "4. If a job description is provided, compute a **match percentage** based on how well the resume aligns with the job.\n" ++
  "5. Provide concise and clear output in JSON format.\n\n" ++
  "Output format MUST be exactly:\n\n" ++
  "\x7b\n  \"resumeScore\": <number 0-100>,\n  \"matchPercentage\": <number 0-100 or null if no job description provided>,\n" ++
  "  \"strengths\": [\n    \"<strength bullet 1>\",\n    \"<strength bullet 2>\",\n    \"<strength bullet 3>\",\n    \"<strength bullet 4>\",\n    \"<strength bullet 5>\"\n  ],\n" ++
  "  \"weaknesses\": [\n    \"<weakness bullet 1>\",\n    \"<weakness bullet 2>\",\n    \"<weakness bullet 3>\",\n    \"<weakness bullet 4>\",\n    \"<weakness bullet 5>\"\n  ]\n\x7d\n\n" ++
  "Criteria:\n" ++
  "- Score should reflect clarity, relevance, keywords, structure, and job description alignment (if provided).\n" ++
  "- matchPercentage is ONLY computed if a job description is provided, else set it to null.\n" ++
  "- Strengths should highlight positive aspects of the resume (skills, achievements, clarity).\n" ++
  "- Weaknesses should highlight suggestions for improvement (missing keywords, unclear formatting, lack of results, etc.)\n\n" ++
  "Here is the resume text:\n" ++ resumeText ++ "\n\n" ++
  "Here is the job description text (leave blank if none):\n" ++ (jobDescription.getD "") ++ "\n\n" ++
  "Respond ONLY with valid JSON. Do not include any other text or markdown formatting."

/-- Outcome of the analyze route: a 200 response forwarding the parsed
upstream JSON object unchanged, or an error status with an `APIError`. -/
inductive HandlerResult where
  | ok (body : Json)
  | err (status : Nat) (e : APIError)

/-- The POST handler of `/api/analyze` (analyze route lines 115-184),
instrumented with the list of prompts sent to the completion endpoint.

Parameters model the handler's effects in source order:
* `init`: constructing `new OpenAI({ apiKey: process.env.OPENAI_API_KEY })`,
  which happens before the body is read and throws when the key is absent;
* `body`: `await request.json()` followed by the unchecked cast to
  `AnalyzeRequest` (a parse failure throws);
* `call`: the completion request; on success it yields
  `completion.choices[0]?.message?.content` (`none` models a missing or
  null content);
* `parse`: `JSON.parse` on the returned content (`none` models a thrown
  `SyntaxError`).

Anything thrown is caught by the handler's catch-all, which responds
500 with the exception's message as `details`.  The emptiness test
`!body.resumeText || body.resumeText.trim().length === 0` is the single
test that the trimmed text is empty, since `""` trims to `""`. -/
def analyzePOST (init : Except String Unit) (body : Except String AnalyzeRequest)
    (call : String → Except String (Option String)) (parse : String → Option Json) :
    HandlerResult × List String :=
  match init with
  | .error e => (.err 500 ⟨"Failed to analyze resume", some e⟩, [])
  | .ok _ =>
    match body with
    | .error e => (.err 500 ⟨"Failed to analyze resume", some e⟩, [])
    | .ok b =>
      if (jsTrim b.resumeText.data).isEmpty then
        (.err 400 ⟨"Resume text is required", none⟩, [])
      else
        let prompt := buildPrompt b.resumeText b.jobDescription
        match call prompt with
        | .error e => (.err 500 ⟨"Failed to analyze resume", some e⟩, [prompt])
        | .ok none => (.err 500 ⟨"No response from OpenAI", none⟩, [prompt])
        | .ok (some content) =>
          -- `!responseContent` is also true of the empty string
          if content = "" then (.err 500 ⟨"No response from OpenAI", none⟩, [prompt])
          else
            match parse content with
            | none => (.err 500 ⟨"Failed to parse OpenAI response", some content⟩, [prompt])
            | some j =>
              match validateStructure j with
              | .error e => (.err 500 ⟨"Failed to analyze resume", some e⟩, [prompt])
              | .ok false => (.err 500 ⟨"Invalid response structure from OpenAI", some content⟩, [prompt])
              | .ok true => (.ok j, [prompt])

/-! ## Invariants of the whitespace pipeline -/

/-- Every whitespace character of the list is a plain space. -/
def onlySpace (l : List Char) : Prop := ∀ c ∈ l, isWs c = true → c = ' '

/-- No two adjacent characters are both whitespace. -/
def sepWs (l : List Char) : Prop :=
  l.Chain' (fun a b => ¬(isWs a = true ∧ isWs b = true))

theorem onlySpace_cwAux (b : Bool) (l : List Char) : onlySpace (cwAux b l) := by
  induction l generalizing b with
  | nil => intro c hc; simp [cwAux] at hc
  | cons c cs ih =>
    intro d hd hws
    by_cases hc : isWs c = true
    · cases b with
      | true =>
        simp [cwAux, hc] at hd
        exact ih true d hd hws
      | false =>
        simp [cwAux, hc] at hd
        rcases hd with hd | hd
        · exact hd
        · exact ih true d hd hws
    · simp [cwAux, hc] at hd
      rcases hd with hd | hd
      · subst hd; exact absurd hws (by simp [hc])
      · exact ih false d hd hws

theorem head_cwAux_true {l : List Char} {c : Char}
    (h : (cwAux true l).head? = some c) : isWs c = false := by
  induction l with
  | nil => simp [cwAux] at h
  | cons d ds ih =>
    by_cases hd : isWs d = true
    · simp [cwAux, hd] at h; exact ih h
    · simp [cwAux, hd] at h
      rw [← h]; simpa using hd

theorem sepWs_cwAux (b : Bool) (l : List Char) : sepWs (cwAux b l) := by
  induction l generalizing b with
  | nil => simp [cwAux, sepWs]
  | cons c cs ih =>
    by_cases hc : isWs c = true
    · cases b with
      | true => simpa [cwAux, hc] using ih true
      | false =>
        simp only [cwAux, hc, if_pos, if_neg, Bool.false_eq_true, ite_false, ite_true]
        rw [sepWs, List.chain'_cons']
        refine ⟨?_, ih true⟩
        intro y hy
        have : isWs y = false := head_cwAux_true hy
        simp [this]
    · simp only [cwAux, hc, ite_false, Bool.false_eq_true]
      rw [sepWs, List.chain'_cons']
      refine ⟨?_, ih false⟩
      intro y _
      simp [hc]

theorem nl_not_mem_cw (l : List Char) : '\n' ∉ cw l := by
  intro hmem
  have := onlySpace_cwAux false l '\n' hmem (by decide)
  exact absurd this (by decide)

/-- The second replace (`/\n\s*\n/g`) is the identity on newline-free text. -/
theorem rbAux_eq_of_no_nl {l : List Char} (h : '\n' ∉ l) : rbAux none l = l := by
  induction l with
  | nil => rfl
  | cons c cs ih =>
    have hc : ¬ c = '\n' := fun hc => h (by simp [hc])
    have hcs : '\n' ∉ cs := fun hm => h (by simp [hm])
    simp [rbAux, hc, ih hcs]

/-- On a list where all whitespace is single spaces, `cwAux false` is
the identity; `cwAux true` is as well provided the head is not
whitespace. -/
theorem cwAux_eq_self {l : List Char} (hsp : onlySpace l) (hsep : sepWs l) :
    cwAux false l = l ∧
      ((∀ c ∈ l.head?, isWs c = false) → cwAux true l = l) := by
  induction l with
  | nil => exact ⟨rfl, fun _ => rfl⟩
  | cons c cs ih =>
    have hsp' : onlySpace cs := fun d hd => hsp d (List.mem_cons_of_mem c hd)
    have hsep' : sepWs cs := List.Chain'.tail hsep
    have ihp := ih hsp' hsep'
    by_cases hc : isWs c = true
    · have hcsp : c = ' ' := hsp c (List.mem_cons_self c cs) hc
      have hhead : ∀ d ∈ cs.head?, isWs d = false := by
        intro d hd
        rw [sepWs, List.chain'_cons'] at hsep
        have := hsep.1 d hd
        by_contra hdt
        exact this ⟨hc, by simpa using hdt⟩
      constructor
      · subst hcsp
        have hstep : cwAux false (' ' :: cs) = ' ' :: cwAux true cs := by
          simp [cwAux, hc]
        rw [hstep, ihp.2 hhead]
      · intro hcontra
        have := hcontra c (by simp)
        rw [this] at hc; simp at hc
    · constructor
      · simp [cwAux, hc, ihp.1]
      · intro _
        simp [cwAux, hc, ihp.1]

theorem head_dropWhile_ws {l : List Char} {c : Char}
    (h : (l.dropWhile isWs).head? = some c) : isWs c = false := by
  induction l with
  | nil => simp [List.dropWhile] at h
  | cons d ds ih =>
    by_cases hd : isWs d = true
    · rw [List.dropWhile_cons_of_pos hd] at h; exact ih h
    · rw [List.dropWhile_cons_of_neg hd] at h
      simp at h
      rw [← h]; simpa using hd

theorem mem_trimL {l : List Char} {c : Char} (h : c ∈ trimL l) : c ∈ l :=
  (List.dropWhile_sublist isWs).mem h

theorem mem_trimR {l : List Char} {c : Char} (h : c ∈ trimR l) : c ∈ l := by
  rw [trimR, List.mem_reverse] at h
  exact List.mem_reverse.mp ((List.dropWhile_sublist isWs).mem h)

theorem mem_jsTrim {l : List Char} {c : Char} (h : c ∈ jsTrim l) : c ∈ l :=
  mem_trimL (mem_trimR h)

theorem sepWs_trimL {l : List Char} (h : sepWs l) : sepWs (trimL l) := by
  have hsplit : l.takeWhile isWs ++ l.dropWhile isWs = l :=
    List.takeWhile_append_dropWhile isWs l
  rw [sepWs, ← hsplit] at h
  exact h.right_of_append

theorem sepWs_reverse {l : List Char} (h : sepWs l) : sepWs l.reverse := by
  rw [sepWs, List.chain'_reverse]
  exact h.imp (fun a b hab => by tauto)

theorem sepWs_trimR {l : List Char} (h : sepWs l) : sepWs (trimR l) :=
  sepWs_reverse (sepWs_trimL (sepWs_reverse h) : sepWs (l.reverse.dropWhile isWs))

theorem sepWs_jsTrim {l : List Char} (h : sepWs l) : sepWs (jsTrim l) :=
  sepWs_trimR (sepWs_trimL h)

theorem head_trimR {x : List Char} {c : Char}
    (h : (trimR x).head? = some c) : x.head? = some c := by
  have hsuf : x.reverse.dropWhile isWs <:+ x.reverse := List.dropWhile_suffix isWs
  have hpre : trimR x <+: x := by
    rw [trimR, ← List.reverse_suffix]
    simpa using hsuf
  obtain ⟨t, ht⟩ := hpre
  cases htr : trimR x with
  | nil => rw [htr] at h; simp at h
  | cons d ds =>
    rw [htr] at h ht
    simp at h
    rw [← ht, ← h]
    simp

theorem head_jsTrim_ws {l : List Char} {c : Char}
    (h : (jsTrim l).head? = some c) : isWs c = false :=
  head_dropWhile_ws (head_trimR h)

theorem last_jsTrim_ws {l : List Char} {c : Char}
    (h : (jsTrim l).reverse.head? = some c) : isWs c = false := by
  rw [jsTrim, trimR, List.reverse_reverse] at h
  exact head_dropWhile_ws h

theorem jsTrim_eq_self {l : List Char}
    (hh : ∀ c ∈ l.head?, isWs c = false)
    (hl : ∀ c ∈ l.reverse.head?, isWs c = false) : jsTrim l = l := by
  have htl : trimL l = l := by
    cases l with
    | nil => rfl
    | cons c cs =>
      have := hh c (by simp)
      rw [trimL, List.dropWhile_cons_of_neg (by simp [this])]
  rw [jsTrim, htl, trimR]
  cases hrev : l.reverse with
  | nil =>
    have : l = [] := by simpa using congrArg List.reverse hrev
    simp [this]
  | cons c cs =>
    have := hl c (by simp [hrev])
    rw [List.dropWhile_cons_of_neg (by simp [this]), ← hrev, List.reverse_reverse]

theorem jsTrim_idem (l : List Char) : jsTrim (jsTrim l) = jsTrim l :=
  jsTrim_eq_self (fun _ hc => head_jsTrim_ws hc) (fun _ hc => last_jsTrim_ws hc)

/-- Because the first replace removes every newline, the second replace
of the cleanup pipeline never fires: the pipeline is collapse-then-trim. -/
theorem cleanUp_eq_trim_cw (l : List Char) : cleanUp l = jsTrim (cw l) := by
  rw [cleanUp, rb, rbAux_eq_of_no_nl (nl_not_mem_cw l)]

/-! ## Suffix dispatch facts -/

theorem endsWithL_iff {l s : List Char} : endsWithL l s = true ↔ s <:+ l := by
  simp [endsWithL]

theorem suffix_left_of_append {α : Type} {s m t : List α}
    (h : s <:+ m ++ t) (hl : s.length ≤ t.length) : s <:+ t := by
  obtain ⟨p, hp⟩ := h
  have hsplit : t = t.take (t.length - s.length) ++ t.drop (t.length - s.length) := by
    simp
  have hlen : (p : List α).length = (m ++ t.take (t.length - s.length)).length := by
    have := congrArg List.length hp
    simp at this
    simp [List.length_take]
    omega
  have : p ++ s = (m ++ t.take (t.length - s.length)) ++ t.drop (t.length - s.length) := by
    rw [List.append_assoc, ← hsplit, hp]
  have hs : s = t.drop (t.length - s.length) := List.append_inj_right this hlen
  rw [hs]
  exact List.drop_suffix _ _

theorem suffix_right_of_append {α : Type} {s m t : List α}
    (h : s <:+ m ++ t) (hl : t.length ≤ s.length) : t <:+ s := by
  obtain ⟨p, hp⟩ := h
  have hsplit : s = s.take (s.length - t.length) ++ s.drop (s.length - t.length) := by
    simp
  have hlen : (p ++ s.take (s.length - t.length)).length = m.length := by
    have := congrArg List.length hp
    simp at this
    simp [List.length_take]
    omega
  have hassoc : (p ++ s.take (s.length - t.length)) ++ s.drop (s.length - t.length) = m ++ t := by
    rw [List.append_assoc, ← hsplit, hp]
  have ht : s.drop (s.length - t.length) = t := List.append_inj_right hassoc hlen
  rw [← ht]
  exact List.drop_suffix _ _

/-- A name ending in `.doc` cannot end in `.pdf`. -/
theorem not_pdf_of_doc {n : List Char} (h : endsWithL n ".doc".data = true) :
    endsWithL n ".pdf".data = false := by
  rw [endsWithL_iff] at h
  obtain ⟨p, hp⟩ := h
  by_contra hpdf
  rw [Bool.not_eq_false, endsWithL_iff, ← hp] at hpdf
  have := suffix_left_of_append hpdf (by decide)
  revert this; decide

/-- A name ending in `.doc` cannot end in `.docx`. -/
theorem not_docx_of_doc {n : List Char} (h : endsWithL n ".doc".data = true) :
    endsWithL n ".docx".data = false := by
  rw [endsWithL_iff] at h
  obtain ⟨p, hp⟩ := h
  by_contra hdocx
  rw [Bool.not_eq_false, endsWithL_iff, ← hp] at hdocx
  have := suffix_right_of_append hdocx (by decide)
  revert this; decide

/-- A name ending in `.docx` cannot end in `.pdf`. -/
theorem not_pdf_of_docx {n : List Char} (h : endsWithL n ".docx".data = true) :
    endsWithL n ".pdf".data = false := by
  rw [endsWithL_iff] at h
  obtain ⟨p, hp⟩ := h
  by_contra hpdf
  rw [Bool.not_eq_false, endsWithL_iff, ← hp] at hpdf
  have := suffix_left_of_append hpdf (by decide)
  revert this; decide

theorem cwAux_true_all_ws {t : List Char} (h : ∀ c ∈ t, isWs c = true) :
    cwAux true t = [] := by
  induction t with
  | nil => rfl
  | cons d ds ih =>
    rw [cwAux]
    simp only [h d (by simp), ite_true]
    exact ih (fun e he => h e (by simp [he]))

theorem cleanUp_eq_nil_of_all_ws {t : List Char} (h : ∀ c ∈ t, isWs c = true) :
    cleanUp t = [] := by
  cases t with
  | nil => rfl
  | cons c cs =>
    have hc : isWs c = true := h c (by simp)
    have hcw : cw (c :: cs) = [' '] := by
      rw [cw, cwAux]
      simp only [hc, ite_true]
      rw [cwAux_true_all_ws (fun e he => h e (by simp [he]))]
      simp
    rw [cleanUp_eq_trim_cw, hcw]
    decide

/-! ## Claims about the extract route -/

/-- C5 (code bug): the cleanup pipeline is claimed to reduce consecutive
blank lines to a single blank line, but the first replace
(`/\s+/g → " "`) rewrites every newline into a space, so the second
replace (`/\n\s*\n/g → "\n\n"`) never matches: an extracted text with
consecutive blank lines comes out as a single space-separated line. -/
theorem c5_blank_lines_not_preserved :
    cleanUp "Line1\n\n\n\nLine2".data = "Line1 Line2".data := by decide

/-- C6: the whitespace-normalization step of the extractor (the
replace/replace/trim pipeline) is idempotent: running it a second time
reproduces the output of the first run, for every input string. -/
theorem c6_cleanUp_idempotent (l : List Char) : cleanUp (cleanUp l) = cleanUp l := by
  rw [cleanUp_eq_trim_cw l]
  have hsp : onlySpace (cw l) := onlySpace_cwAux false l
  have hsep : sepWs (cw l) := sepWs_cwAux false l
  have hspt : onlySpace (jsTrim (cw l)) := fun c hc hw => hsp c (mem_jsTrim hc) hw
  have hsept : sepWs (jsTrim (cw l)) := sepWs_jsTrim hsep
  have hcwt : cw (jsTrim (cw l)) = jsTrim (cw l) := (cwAux_eq_self hspt hsept).1
  have hnl : '\n' ∉ jsTrim (cw l) := fun hmem => nl_not_mem_cw l (mem_jsTrim hmem)
  show jsTrim (rb (cw (jsTrim (cw l)))) = jsTrim (cw l)
  rw [hcwt, rb, rbAux_eq_of_no_nl hnl, jsTrim_idem]

/-- C7: a filename whose lowercased form ends in `.doc` but not `.docx`
is rejected with status 400 and the legacy-format message, for every
parser environment (hence regardless of the file's bytes), and that
message is distinct from the generic unsupported-format message. -/
theorem c7_legacy_doc_rejected (env : ExtractEnv) (f : UploadedFile)
    (hdoc : endsWithL (jsToLower f.name) ".doc".data = true)
    (hdocx : endsWithL (jsToLower f.name) ".docx".data = false) :
    extractPOST env (some f) = .err 400 legacyDocErr ∧ legacyDocErr ≠ unsupportedErr := by
  have hpdf := not_pdf_of_doc hdoc
  refine ⟨?_, by decide⟩
  simp [extractPOST, hpdf, hdocx, hdoc]

theorem c7_witness :
    extractPOST ⟨fun _ => .ok (.inr "body".data), fun _ => .ok "body".data⟩
        (some ⟨"resume.doc".data, [208, 207]⟩) = .err 400 legacyDocErr ∧
      legacyDocErr ≠ unsupportedErr :=
  c7_legacy_doc_rejected _ _ (by decide) (by decide)

/-- C8: when a `.pdf` or `.docx` upload parses successfully but the
extracted text has no non-whitespace character, the route does not
return a success payload: it responds 400 with the
empty-or-corrupted `APIError`. -/
theorem c8_whitespace_only_rejected (env : ExtractEnv) (f : UploadedFile) (text : List Char)
    (hws : ∀ c ∈ text, isWs c = true)
    (h : (endsWithL (jsToLower f.name) ".pdf".data = true ∧
            (env.pdfText f.content = .ok (.inr text) ∨
              ∃ pages, env.pdfText f.content = .ok (.inl pages) ∧
                List.intercalate ['\n'] pages = text)) ∨
         (endsWithL (jsToLower f.name) ".docx".data = true ∧
            env.docxRaw f.content = .ok text)) :
    extractPOST env (some f) = .err 400 emptyOrCorruptErr := by
  have hfin : finishExtract text = .err 400 emptyOrCorruptErr := by
    rw [finishExtract]
    simp [cleanUp_eq_nil_of_all_ws hws]
  rcases h with ⟨hpdf, hres⟩ | ⟨hdocx, hres⟩
  · rcases hres with hres | ⟨pages, hres, hjoin⟩
    · simp [extractPOST, hpdf, pdfBranch, hres, hfin]
    · simp [extractPOST, hpdf, pdfBranch, hres, hjoin, hfin]
  · have hpdf := not_pdf_of_docx hdocx
    simp [extractPOST, hpdf, hdocx, docxBranch, hres, hfin]

theorem c8_witness :
    extractPOST ⟨fun _ => .ok (.inr "   \n ".data), fun _ => .ok []⟩
        (some ⟨"cv.pdf".data, [1, 2, 3]⟩) = .err 400 emptyOrCorruptErr :=
  c8_whitespace_only_rejected _ _ "   \n ".data (by decide)
    (.inl ⟨by decide, .inl rfl⟩)

/-- C9: dispatch is on the lowercased declared filename, so a name
ending in `.PDF` in any letter case is routed to the PDF extractor,
one ending in `.DOCX` to the Word extractor, and one ending in `.DOC`
to the legacy-format rejection. -/
theorem c9_dispatch_lowercases (env : ExtractEnv) (f : UploadedFile)
    (base suffix : List Char) :
    (jsToLower suffix = ".pdf".data → f.name = base ++ suffix →
        extractPOST env (some f) = pdfBranch env f) ∧
    (jsToLower suffix = ".docx".data → f.name = base ++ suffix →
        extractPOST env (some f) = docxBranch env f) ∧
    (jsToLower suffix = ".doc".data → f.name = base ++ suffix →
        extractPOST env (some f) = .err 400 legacyDocErr) := by
  refine ⟨?_, ?_, ?_⟩ <;> intro hsuf hname
  · have hend : endsWithL (jsToLower f.name) ".pdf".data = true := by
      rw [endsWithL_iff]
      exact ⟨jsToLower base, by rw [hname, ← hsuf]; simp [jsToLower]⟩
    simp [extractPOST, hend]
  · have hdocx : endsWithL (jsToLower f.name) ".docx".data = true := by
      rw [endsWithL_iff]
      exact ⟨jsToLower base, by rw [hname, ← hsuf]; simp [jsToLower]⟩
    have hpdf := not_pdf_of_docx hdocx
    simp [extractPOST, hpdf, hdocx]
  · have hdoc : endsWithL (jsToLower f.name) ".doc".data = true := by
      rw [endsWithL_iff]
      exact ⟨jsToLower base, by rw [hname, ← hsuf]; simp [jsToLower]⟩
    have hpdf := not_pdf_of_doc hdoc
    have hdocx := not_docx_of_doc hdoc
    simp [extractPOST, hpdf, hdocx, hdoc]

theorem c9_witness :
    extractPOST ⟨fun _ => .ok (.inr "t".data), fun _ => .ok "t".data⟩
        (some ⟨"CV.PDF".data, []⟩) =
      pdfBranch ⟨fun _ => .ok (.inr "t".data), fun _ => .ok "t".data⟩
        ⟨"CV.PDF".data, []⟩ ∧
    extractPOST ⟨fun _ => .ok (.inr "t".data), fun _ => .ok "t".data⟩
        (some ⟨"My.Resume.Docx".data, []⟩) =
      docxBranch ⟨fun _ => .ok (.inr "t".data), fun _ => .ok "t".data⟩
        ⟨"My.Resume.Docx".data, []⟩ ∧
    extractPOST ⟨fun _ => .ok (.inr "t".data), fun _ => .ok "t".data⟩
        (some ⟨"old.DOC".data, []⟩) = .err 400 legacyDocErr :=
  ⟨(c9_dispatch_lowercases _ _ "CV".data ".PDF".data).1 (by decide) rfl,
   (c9_dispatch_lowercases _ _ "My.Resume".data ".Docx".data).2.1 (by decide) rfl,
   (c9_dispatch_lowercases _ _ "old".data ".DOC".data).2.2 (by decide) rfl⟩

/-! ## Claims about the analyze route -/

theorem jsGetField_eq_fieldOf {j : Json} (h : j ≠ .null) (k : String) :
    jsGetField j k = .ok (fieldOf j k) := by
  cases j <;> simp [jsGetField, fieldOf] at h ⊢

/-- C1: once the client is constructed and the body parsed, an empty or
whitespace-only `resumeText` is rejected with status 400 and the
validation `APIError`, and the outbound-call list is empty — no request
reaches the completion endpoint, whatever `call` and `parse` would do. -/
theorem c1_empty_resume_rejected_before_call
    (call : String → Except String (Option String)) (parse : String → Option Json)
    (b : AnalyzeRequest) (h : jsTrim b.resumeText.data = []) :
    analyzePOST (.ok ()) (.ok b) call parse =
      (.err 400 ⟨"Resume text is required", none⟩, []) := by
  simp [analyzePOST, h]

theorem c1_witness :
    analyzePOST (.ok ()) (.ok ⟨"  \n ", none⟩) (fun _ => .ok (some "x"))
        (fun _ => none) =
      (.err 400 ⟨"Resume text is required", none⟩, []) :=
  c1_empty_resume_rejected_before_call _ _ _ (by decide)

/-- C2: when the trimmed `resumeText` is non-empty and the upstream call
returns content that parses to a JSON value whose `resumeScore` is a
number and whose `strengths` and `weaknesses` are arrays, the handler
forwards the parsed value to the client exactly as parsed: no clamping
or rounding of the score, no range or length checks, and a null
`matchPercentage` stays null.  (Content that parses as JSON is
necessarily non-empty; `hne` records this, since empty content is
intercepted earlier by the falsy content check.) -/
theorem c2_valid_reply_forwarded_unchanged
    (b : AnalyzeRequest) (call : String → Except String (Option String))
    (parse : String → Option Json) (content : String) (j : Json)
    (q : ℚ) (sts wks : List Json)
    (hres : jsTrim b.resumeText.data ≠ [])
    (hcall : call (buildPrompt b.resumeText b.jobDescription) = .ok (some content))
    (hne : content ≠ "")
    (hparse : parse content = some j)
    (hscore : fieldOf j "resumeScore" = some (.num q))
    (hstr : fieldOf j "strengths" = some (.arr sts))
    (hwk : fieldOf j "weaknesses" = some (.arr wks)) :
    analyzePOST (.ok ()) (.ok b) call parse =
      (.ok j, [buildPrompt b.resumeText b.jobDescription]) := by
  have hnn : j ≠ .null := by
    intro hj
    rw [hj] at hscore
    simp [fieldOf] at hscore
  have hval : validateStructure j = .ok true := by
    rw [validateStructure]
    simp [jsGetField_eq_fieldOf hnn, hscore, hstr, hwk, isNumField, isArrField,
      Bind.bind, Except.bind, Pure.pure, Except.pure]
  simp [analyzePOST, hres, hcall, hne, hparse, hval]

theorem c2_witness :
    analyzePOST (.ok ()) (.ok ⟨"Senior engineer, 5 years React, AWS.", none⟩)
        (fun _ => .ok (some "resp"))
        (fun _ => some (.obj [("resumeScore", .num 250), ("matchPercentage", .null),
          ("strengths", .arr [.str "s1"]), ("weaknesses", .arr [])])) =
      (.ok (.obj [("resumeScore", .num 250), ("matchPercentage", .null),
          ("strengths", .arr [.str "s1"]), ("weaknesses", .arr [])]),
        [buildPrompt "Senior engineer, 5 years React, AWS." none]) :=
  c2_valid_reply_forwarded_unchanged _ _ _ "resp" _ 250 [.str "s1"] []
    (by decide) rfl (by decide) rfl rfl rfl rfl

/-- C3 (counterexample): the content `"null"` parses as JSON and has no
numeric `resumeScore` field, and the route does answer 500 — but the
property read `.resumeScore` on `null` throws a TypeError, so the
catch-all answers with the exception message as `details`, not with the
raw upstream content (`"null"`): the claim's "details contains the raw
upstream content" fails. -/
theorem c3_counterexample :
    analyzePOST (.ok ()) (.ok ⟨"resume", none⟩) (fun _ => .ok (some "null"))
        (fun s => if s = "null" then some .null else none) =
      (.err 500 ⟨"Failed to analyze resume",
          some "Cannot read properties of null (reading resumeScore)"⟩,
        [buildPrompt "resume" none]) ∧
      "Cannot read properties of null (reading resumeScore)" ≠ "null" :=
  ⟨rfl, by decide⟩

/-- C3 (amended): for upstream content that parses to a JSON value other
than `null` and fails the structural check (no numeric `resumeScore`, or
`strengths` or `weaknesses` not an array), the route responds 500 with
the invalid-structure `APIError` carrying the raw content as `details`. -/
theorem c3_invalid_schema_rejected
    (b : AnalyzeRequest) (call : String → Except String (Option String))
    (parse : String → Option Json) (content : String) (j : Json)
    (hres : jsTrim b.resumeText.data ≠ [])
    (hcall : call (buildPrompt b.resumeText b.jobDescription) = .ok (some content))
    (hne : content ≠ "")
    (hparse : parse content = some j)
    (hnn : j ≠ .null)
    (hbad : (isNumField (fieldOf j "resumeScore") &&
        isArrField (fieldOf j "strengths") &&
        isArrField (fieldOf j "weaknesses")) = false) :
    analyzePOST (.ok ()) (.ok b) call parse =
      (.err 500 ⟨"Invalid response structure from OpenAI", some content⟩,
        [buildPrompt b.resumeText b.jobDescription]) := by
  have hval : validateStructure j = .ok false := by
    rw [validateStructure]
    simp [jsGetField_eq_fieldOf hnn, hbad, Bind.bind, Except.bind, Pure.pure, Except.pure]
  simp [analyzePOST, hres, hcall, hne, hparse, hval]

theorem c3_amended_witness :
    analyzePOST (.ok ()) (.ok ⟨"resume text", none⟩) (fun _ => .ok (some "bad"))
        (fun _ => some (.obj [("resumeScore", .str "high")])) =
      (.err 500 ⟨"Invalid response structure from OpenAI", some "bad"⟩,
        [buildPrompt "resume text" none]) :=
  c3_invalid_schema_rejected _ _ _ "bad" _ (by decide) rfl (by decide) rfl
    (by intro h; cases h) rfl

/-- C4 (counterexample): the empty string is not parseable as JSON, yet
the route answers it with the no-response `APIError`: the falsy check on
the content fires before `JSON.parse`, so the status is 500 but
`details` is absent instead of carrying the raw (empty) content. -/
theorem c4_counterexample :
    analyzePOST (.ok ()) (.ok ⟨"resume four", none⟩) (fun _ => .ok (some ""))
        (fun _ => none) =
      (.err 500 ⟨"No response from OpenAI", none⟩, [buildPrompt "resume four" none]) ∧
      (none : Option String) ≠ some "" :=
  ⟨rfl, by decide⟩

/-- C4 (amended): for a non-empty upstream content on which `JSON.parse`
throws, the route responds 500 with the parse-failure `APIError`
carrying the raw unparseable content as `details`. -/
theorem c4_unparseable_rejected
    (b : AnalyzeRequest) (call : String → Except String (Option String))
    (parse : String → Option Json) (content : String)
    (hres : jsTrim b.resumeText.data ≠ [])
    (hcall : call (buildPrompt b.resumeText b.jobDescription) = .ok (some content))
    (hne : content ≠ "")
    (hparse : parse content = none) :
    analyzePOST (.ok ()) (.ok b) call parse =
      (.err 500 ⟨"Failed to parse OpenAI response", some content⟩,
        [buildPrompt b.resumeText b.jobDescription]) := by
  simp [analyzePOST, hres, hcall, hne, hparse]

theorem c4_amended_witness :
    analyzePOST (.ok ()) (.ok ⟨"resume five", none⟩)
        (fun _ => .ok (some "not json")) (fun _ => none) =
      (.err 500 ⟨"Failed to parse OpenAI response", some "not json"⟩,
        [buildPrompt "resume five" none]) :=
  c4_unparseable_rejected _ _ _ "not json" (by decide) rfl (by decide) rfl

/-- C10: the OpenAI client is constructed — reading the credential —
before the body is read or validated, so if construction throws, every
request, in particular one with an empty or whitespace-only
`resumeText`, receives the 500 catch-all `APIError` (with the thrown
message as `details`) and no outbound call: the 400 validation answer is
unreachable in that state. -/
theorem c10_client_init_failure_preempts_validation
    (e : String) (body : Except String AnalyzeRequest)
    (call : String → Except String (Option String)) (parse : String → Option Json) :
    analyzePOST (.error e) body call parse =
      (.err 500 ⟨"Failed to analyze resume", some e⟩, []) := rfl
